import Mathlib

/-!
Verification of the gpt-cli chat client (src/main.rs) against its
natural-language specification.  The program is shallowly embedded:
pure functions of the Rust source become Lean functions; the stateful
per-turn loop body becomes an explicit state-passing function; the
external streaming API and the external tokenizer are parameters;
`u16` arithmetic is `Nat` with explicit `% 65536`; `f64` price
arithmetic is modelled with exact rationals; fallible steps return
`Except`.
-/

set_option maxRecDepth 100000

namespace GptCli

/-- `enum ContextType { Assistant(String), User(String) }` (main.rs:28-32). -/
inductive ContextType where
  | Assistant (s : String)
  | User (s : String)
deriving DecidableEq, Repr

/-- `struct AppState` (main.rs:20-26).  `max_tokens : u16` is a `Nat`
kept below 65536 by construction elsewhere; it is not involved in any
arithmetic here. -/
structure AppState where
  model : String
  max_tokens : Nat
  auto_pipe : Bool
  context : List ContextType
deriving DecidableEq, Repr

/-- `AppState::get_model` (main.rs:35-37). -/
def AppState.get_model (s : AppState) : String := s.model

/-- The initial state built in `main` (main.rs:49-54). -/
def initState : AppState :=
  { model := "gpt-3.5-turbo", max_tokens := 512, auto_pipe := false, context := [] }

/-- One message of the external wire format: the image of a `ContextType`
under `convert_context` (role tag plus content). -/
inductive ChatMessage where
  | user (content : String)
  | assistant (content : String)
deriving DecidableEq, Repr

/-- `convert_context` (main.rs:180-201): maps each turn, in order, to the
external message representation. -/
def convert_context (context : List ContextType) : List ChatMessage :=
  context.map fun ctx =>
    match ctx with
    | ContextType.User msg => ChatMessage.user msg
    | ContextType.Assistant msg => ChatMessage.assistant msg

/-- `count_tokens` (main.rs:216-220).  The external tokenizer capability
is the parameter `tok` giving the true token count of a string; the Rust
code returns `tokens.len() as u16`, i.e. the count truncated to 16 bits. -/
def count_tokens (tok : String → Nat) (text : String) : Nat :=
  tok text % 65536

/-- `count_tokens_ctx` (main.rs:203-214): sums the per-turn counts with a
`u16` accumulator, so every addition wraps modulo 2^16. -/
def count_tokens_ctx (tok : String → Nat) (context : List ContextType) : Nat :=
  context.foldl
    (fun sum ctx =>
      let msg := match ctx with
        | ContextType.Assistant m => m
        | ContextType.User m => m
      (sum + count_tokens tok msg) % 65536)
    0

/-- Fixed-point scale for representing binary64 (`f64`) values exactly:
a floating-point value x in the pricing range is represented by the
natural number x * 2^120, which is an integer for every `f64` value
arising in `calc_price` (the smallest unit in the last place there is
far above 2^-120). -/
def f64Scale : Nat := 2 ^ 120

/-- Floor of log2, driven by explicit fuel (the first argument); with
fuel ≥ n the result is exact for every n ≥ 1. -/
def natLog2Aux : Nat → Nat → Nat
  | 0, _ => 0
  | fuel + 1, n => if n ≤ 1 then 0 else natLog2Aux fuel (n / 2) + 1

/-- Floor of log2 of a positive natural number. -/
def natLog2 (n : Nat) : Nat := natLog2Aux n n

/-- IEEE-754 binary64 rounding (round to nearest, ties to even) of the
fixed-point value n / 2^120, returned in the same fixed-point
representation: the value is snapped to the 53-bit-significand grid of
its own binade.  A value whose binade exponent e is below 53 needs at
most 52 significant bits at this scale and passes through unchanged;
exponent overflow and subnormals lie outside the pricing range and are
not modelled. -/
def roundF64 (n : Nat) : Nat :=
  if n = 0 then 0
  else
    let e := natLog2 n
    if e < 53 then n
    else
      let ulp := 2 ^ (e - 52)
      let q := n / ulp
      let r := n % ulp
      if 2 * r < ulp then q * ulp
      else if ulp < 2 * r then (q + 1) * ulp
      else if q % 2 = 0 then q * ulp else (q + 1) * ulp

/-- The binary64 value of the quotient a / b of two positive naturals,
correctly rounded (round to nearest, ties to even), in fixed-point
representation: this is what the Rust compile-time constant `a. / b.`
evaluates to. -/
def roundF64Div (a b : Nat) : Nat :=
  if a = 0 ∨ b = 0 then 0
  else
    let n := a * f64Scale
    let e := natLog2 (n / b)
    let ulp := if e < 53 then 1 else 2 ^ (e - 52)
    let q := n / (b * ulp)
    let r := n - q * (b * ulp)
    if 2 * r < b * ulp then q * ulp
    else if b * ulp < 2 * r then (q + 1) * ulp
    else if q % 2 = 0 then q * ulp else (q + 1) * ulp

/-- `PRICE_4` (main.rs:16): the two `f64` constants `3. / 1_000.` and
`6. / 1_000.` (per-token input and output rates for gpt-4), in
fixed-point representation. -/
def PRICE_4 : Nat × Nat := (roundF64Div 3 1000, roundF64Div 6 1000)

/-- `PRICE_4T` (main.rs:17): the `f64` constants `1. / 1_000.` and
`3. / 1_000.` (per-token rates for gpt-4 turbo). -/
def PRICE_4T : Nat × Nat := (roundF64Div 1 1000, roundF64Div 3 1000)

/-- `PRICE_3` (main.rs:18): the `f64` constants `1. / 10_000.` and
`2. / 10_000.` (per-token rates for gpt-3.5-turbo). -/
def PRICE_3 : Nat × Nat := (roundF64Div 1 10000, roundF64Div 2 10000)

/-- `calc_price` (main.rs:222-231) in fixed-point representation.  The
`u16` token counts convert to `f64` exactly (main.rs:223-224); each of
the two multiplications and the final addition is an IEEE binary64
operation, i.e. correctly rounded.  The unknown-model branch returns
the exact constant 99999.0. -/
def calc_priceScaled (inp out : Nat) (state : AppState) : Nat :=
  match state.model with
  | "gpt-3.5-turbo" => roundF64 (roundF64 (inp * PRICE_3.1) + roundF64 (out * PRICE_3.2))
  | "gpt-4" => roundF64 (roundF64 (inp * PRICE_4.1) + roundF64 (out * PRICE_4.2))
  | "gpt-4 turbo" => roundF64 (roundF64 (inp * PRICE_4T.1) + roundF64 (out * PRICE_4T.2))
  | _ => 99999 * f64Scale

/-- `calc_price` (main.rs:222-231): the computed `f64` price as a
rational number (the fixed-point value divided by the scale). -/
def calc_price (inp out : Nat) (state : AppState) : ℚ :=
  (calc_priceScaled inp out state : ℚ) / (f64Scale : ℚ)

/-- Modelled from the spec: the idealized pricing formula `cost =
input_tokens * rate_in[model] + output_tokens * rate_out[model]`
(spec section 4.4) read in exact real-number arithmetic with the
nominal per-token rates — a second, specification-side definition used
to compare the `f64`-computed `calc_price` against the claimed exact
linearity. -/
def calc_price_exact (inp out : Nat) (state : AppState) : ℚ :=
  match state.model with
  | "gpt-3.5-turbo" => inp * (1 / 10000 : ℚ) + out * (2 / 10000 : ℚ)
  | "gpt-4" => inp * (3 / 1000 : ℚ) + out * (6 / 1000 : ℚ)
  | "gpt-4 turbo" => inp * (1 / 1000 : ℚ) + out * (3 / 1000 : ℚ)
  | _ => 99999

/-- One choice inside a streamed chunk: `chat_choice.delta.content` is
`Option<String>` (main.rs:96-100). -/
structure ChatChoice where
  content : Option String
deriving DecidableEq, Repr

/-- One streamed chunk: its list of choices (main.rs:96). -/
structure StreamResponse where
  choices : List ChatChoice
deriving DecidableEq, Repr

/-- One element yielded by the external stream: `Ok(response)` or
`Err(err)` (main.rs:93-106). -/
inductive StreamResult where
  | ok (r : StreamResponse)
  | err (e : String)
deriving DecidableEq, Repr

/-- One thing written to stdout while streaming: a content fragment
(main.rs:98) or the inline `An error occured: {err}` annotation
(main.rs:104). -/
inductive OutputEvent where
  | content (s : String)
  | errorAnnotation (e : String)
deriving DecidableEq, Repr

/-- The `while let Some(result) = stream.next().await` loop
(main.rs:93-108): folds the finite fragment sequence, appending each
content fragment to `response_save` and emitting it, and emitting an
inline annotation for each error fragment.  Returns the accumulated
text together with the ordered output trace; the fold returning at all
is the transition to Done, which happens exactly when the list is
exhausted. -/
def aggregateStream (frags : List StreamResult) : String × List OutputEvent :=
  frags.foldl
    (fun acc frag =>
      match frag with
      | StreamResult.ok response =>
          response.choices.foldl
            (fun acc chat_choice =>
              match chat_choice.content with
              | some content => (acc.1 ++ content, acc.2 ++ [OutputEvent.content content])
              | none => acc)
            acc
      | StreamResult.err e => (acc.1, acc.2 ++ [OutputEvent.errorAnnotation e]))
    ("", [])

/-- The concatenation, in order, of the contents of one chunk's choices
(specification-side description). -/
def choicesContents : List ChatChoice → String
  | [] => ""
  | chat_choice :: rest =>
      (match chat_choice.content with
       | some content => content
       | none => "") ++ choicesContents rest

/-- The content events emitted for one chunk's choices, in order. -/
def choicesEvents : List ChatChoice → List OutputEvent
  | [] => []
  | chat_choice :: rest =>
      (match chat_choice.content with
       | some content => [OutputEvent.content content]
       | none => []) ++ choicesEvents rest

/-- The concatenation, in receipt order, of all content fragments of a
stream (specification-side description of what `aggregateStream`
accumulates): error fragments contribute nothing yet do not stop the
concatenation. -/
def streamContents : List StreamResult → String
  | [] => ""
  | StreamResult.ok response :: rest => choicesContents response.choices ++ streamContents rest
  | StreamResult.err _ :: rest => streamContents rest

/-- The ordered output trace of a stream: each content fragment in
order, with an inline error annotation for each error fragment. -/
def streamEvents : List StreamResult → List OutputEvent
  | [] => []
  | StreamResult.ok response :: rest => choicesEvents response.choices ++ streamEvents rest
  | StreamResult.err e :: rest => OutputEvent.errorAnnotation e :: streamEvents rest

/-- `input.starts_with('|')` (main.rs:72): the input line carries the
continuation marker. -/
def startsWithPipe (input : String) : Bool :=
  input.data.head? = some '|'

/-- `input.remove(0)` applied to a line starting with the marker
(main.rs:75): removes the first character. -/
def removeFirstChar (input : String) : String :=
  String.mk (input.data.drop 1)

/-- The context-retention rule (main.rs:71-77): if the input does not
start with the continuation marker and `auto_pipe` is off, the context
is reset; if the input starts with the marker, the marker is removed;
then the (possibly stripped) input is pushed as a User turn.  Returns
the stripped input together with the resulting context. -/
def contextRule (input : String) (state : AppState) : String × List ContextType :=
  let context :=
    if startsWithPipe input = false ∧ state.auto_pipe = false then ([] : List ContextType)
    else state.context
  let input := if startsWithPipe input then removeFirstChar input else input
  (input, context ++ [ContextType.User input])

/-- The per-turn summary printed at main.rs:115-121; the total is the
`u16` sum `input_tokens + response_tokens` (main.rs:119), which wraps
modulo 2^16 (release-build semantics). -/
structure TurnSummary where
  input_tokens : Nat
  response_tokens : Nat
  total_tokens : Nat
  price : ℚ
deriving DecidableEq, Repr

/-- The result of one successful non-command turn: the new state, the
messages that were sent, the output trace, and the summary. -/
structure TurnResult where
  state : AppState
  sent : List ChatMessage
  output : List OutputEvent
  summary : TurnSummary
deriving Repr

/-- The body of `main`'s loop for a non-empty, non-command input line
(main.rs:71-122).  `streamOpen` models `client.chat().create_stream(request).await`:
`Err` there is propagated by `?` out of `main` (main.rs:88), terminating
the process, which the embedding renders as `Except.error`.  On `Ok` the
fragment list is aggregated, exactly one Assistant turn holding the
accumulated text is pushed, and the summary is computed. -/
def turnStep (tok : String → Nat) (streamOpen : Except String (List StreamResult))
    (input : String) (state : AppState) : Except String TurnResult :=
  let (_, context) := contextRule input state
  let state := { state with context := context }
  let input_tokens := count_tokens_ctx tok state.context
  let sent := convert_context state.context
  match streamOpen with
  | Except.error e => Except.error e
  | Except.ok frags =>
      let (response_save, output) := aggregateStream frags
      let response_tokens := count_tokens tok response_save
      let state := { state with context := state.context ++ [ContextType.Assistant response_save] }
      let price := calc_price input_tokens response_tokens state
      Except.ok
        { state := state
          sent := sent
          output := output
          summary :=
            { input_tokens := input_tokens
              response_tokens := response_tokens
              total_tokens := (input_tokens + response_tokens) % 65536
              price := price } }

/-- Whitespace in the sense of Rust `char::is_whitespace`, restricted to
the ASCII whitespace relevant to trimmed terminal input. -/
def isWsChar (c : Char) : Bool :=
  c = ' ' ∨ c = '\t' ∨ c = '\n' ∨ c = '\r'

/-- Rust `str::trim`: drop whitespace from both ends of the character
list. -/
def trimChars (cs : List Char) : List Char :=
  ((cs.dropWhile isWsChar).reverse.dropWhile isWsChar).reverse

/-- Worker for `splitWs`: accumulates the current word (reversed) while
scanning. -/
def splitWsAux : List Char → List Char → List (List Char)
  | [], cur => if cur.isEmpty then [] else [cur.reverse]
  | c :: rest, cur =>
      if isWsChar c then
        if cur.isEmpty then splitWsAux rest []
        else cur.reverse :: splitWsAux rest []
      else splitWsAux rest (c :: cur)

/-- Rust `str::split_whitespace`: the whitespace-delimited words, empty
words skipped. -/
def splitWs (cs : List Char) : List (List Char) :=
  splitWsAux cs []

/-- The outcome of `parse_command`: either the process exits (the quit
command calls `std::process::exit(0)`, main.rs:137) or control returns
to the loop with the (possibly mutated) state. -/
inductive CmdResult where
  | exit (code : Nat)
  | cont (state : AppState)
deriving DecidableEq, Repr

/-- `parse_command` (main.rs:126-178).  The line is trimmed and
lowercased; the first whitespace-delimited word is the command, the
remaining words are concatenated (Rust `words.collect::<String>()`
joins with no separator) and trimmed to form the argument.  `:q`/`:quit`
exits with code 0; `:c`/`:context` toggles `auto_pipe`; `:m`/`:model`
sets the model for arguments `3`, `4`, `4t` and otherwise only prints;
`:h`/`:help` and unknown commands only print. -/
def parse_command (command : String) (state : AppState) : CmdResult :=
  let chars := (trimChars command.data).map Char.toLower
  let words := splitWs chars
  let cmd := String.mk (words.headD [])
  let args := String.mk (trimChars (words.drop 1).flatten)
  if cmd = ":q" ∨ cmd = ":quit" then CmdResult.exit 0
  else if cmd = ":c" ∨ cmd = ":context" then
    CmdResult.cont { state with auto_pipe := !state.auto_pipe }
  else if cmd = ":m" ∨ cmd = ":model" then
    match args with
    | "3" => CmdResult.cont { state with model := "gpt-3.5-turbo" }
    | "4" => CmdResult.cont { state with model := "gpt-4" }
    | "4t" => CmdResult.cont { state with model := "gpt-4 turbo" }
    | _ => CmdResult.cont state
  else CmdResult.cont state

/-- What `main` does before entering the loop (main.rs:42-54): it checks
only the `OPENAI_API_KEY` environment variable, exiting cleanly when it
is absent, and otherwise builds the default state and enters the loop.
No tokenizer initialization happens here. -/
inductive StartupOutcome where
  | exitMissingKey
  | enterLoop (state : AppState)
deriving Repr

/-- Startup of `main` (main.rs:42-54), parameterized by the
environment-variable lookup result. -/
def mainStartup (apiKey : Option String) : StartupOutcome :=
  match apiKey with
  | none => StartupOutcome.exitMissingKey
  | some _ => StartupOutcome.enterLoop initState

/-- `count_tokens` with the `cl100k_base()` initialization made explicit
(main.rs:217-218): the tokenizer is initialized inside every call and
`.unwrap()` panics at that call when initialization fails.  `none`
models the per-call panic; `some` carries the `u16`-truncated count. -/
def count_tokens_with_init (cl100k_base : Option (String → Nat)) (text : String) : Option Nat :=
  match cl100k_base with
  | some cl100k => some (count_tokens cl100k text)
  | none => none

/-- The text of a turn, regardless of role. -/
def ContextType.text : ContextType → String
  | ContextType.Assistant m => m
  | ContextType.User m => m

/-! ## Helper lemmas -/

theorem choices_foldl_eq (chs : List ChatChoice) (acc : String × List OutputEvent) :
    chs.foldl
      (fun acc chat_choice =>
        match chat_choice.content with
        | some content => (acc.1 ++ content, acc.2 ++ [OutputEvent.content content])
        | none => acc)
      acc = (acc.1 ++ choicesContents chs, acc.2 ++ choicesEvents chs) := by
  induction chs generalizing acc with
  | nil => simp [choicesContents, choicesEvents, String.append_empty]
  | cons chat_choice rest ih =>
      cases h : chat_choice.content with
      | none =>
          simp [List.foldl_cons, h, ih, choicesContents, choicesEvents, String.empty_append]
      | some content =>
          simp [List.foldl_cons, h, ih, choicesContents, choicesEvents, String.append_assoc]

theorem aggregateStream_foldl_eq (frags : List StreamResult) (acc : String × List OutputEvent) :
    frags.foldl
      (fun acc frag =>
        match frag with
        | StreamResult.ok response =>
            response.choices.foldl
              (fun acc chat_choice =>
                match chat_choice.content with
                | some content => (acc.1 ++ content, acc.2 ++ [OutputEvent.content content])
                | none => acc)
              acc
        | StreamResult.err e => (acc.1, acc.2 ++ [OutputEvent.errorAnnotation e]))
      acc = (acc.1 ++ streamContents frags, acc.2 ++ streamEvents frags) := by
  induction frags generalizing acc with
  | nil => simp [streamContents, streamEvents, String.append_empty]
  | cons frag rest ih =>
      cases frag with
      | ok response =>
          simp only [List.foldl_cons]
          rw [choices_foldl_eq response.choices acc, ih]
          simp [streamContents, streamEvents, String.append_assoc]
      | err e =>
          simp only [List.foldl_cons]
          rw [ih]
          simp [streamContents, streamEvents, List.append_assoc]

theorem aggregateStream_eq (frags : List StreamResult) :
    aggregateStream frags = (streamContents frags, streamEvents frags) := by
  unfold aggregateStream
  rw [aggregateStream_foldl_eq]
  simp [String.empty_append]

theorem streamContents_append (xs ys : List StreamResult) :
    streamContents (xs ++ ys) = streamContents xs ++ streamContents ys := by
  induction xs with
  | nil => simp [streamContents, String.empty_append]
  | cons x rest ih =>
      cases x <;> simp [streamContents, ih, String.append_assoc]

theorem count_tokens_ctx_foldl (tok : String → Nat) (context : List ContextType) (acc : Nat) :
    context.foldl
      (fun sum ctx =>
        let msg := match ctx with
          | ContextType.Assistant m => m
          | ContextType.User m => m
        (sum + count_tokens tok msg) % 65536)
      (acc % 65536)
      = (acc + (context.map fun c => tok c.text).sum) % 65536 := by
  induction context generalizing acc with
  | nil => simp
  | cons c rest ih =>
      cases c with
      | Assistant m =>
          rw [List.foldl_cons]
          have h2 : (acc % 65536 + count_tokens tok m) % 65536 = (acc + tok m) % 65536 := by
            simp [count_tokens, Nat.add_mod]
          show List.foldl _ ((acc % 65536 + count_tokens tok m) % 65536) rest = _
          rw [h2, ih (acc + tok m)]
          simp [List.map_cons, List.sum_cons, ContextType.text, Nat.add_assoc]
      | User m =>
          rw [List.foldl_cons]
          have h2 : (acc % 65536 + count_tokens tok m) % 65536 = (acc + tok m) % 65536 := by
            simp [count_tokens, Nat.add_mod]
          show List.foldl _ ((acc % 65536 + count_tokens tok m) % 65536) rest = _
          rw [h2, ih (acc + tok m)]
          simp [List.map_cons, List.sum_cons, ContextType.text, Nat.add_assoc]

theorem count_tokens_ctx_eq (tok : String → Nat) (context : List ContextType) :
    count_tokens_ctx tok context = (context.map fun c => tok c.text).sum % 65536 := by
  have h := count_tokens_ctx_foldl tok context 0
  simpa [count_tokens_ctx] using h

theorem turnStep_ok_parts (tok : String → Nat) (frags : List StreamResult)
    (input : String) (state : AppState) :
    ∃ r, turnStep tok (Except.ok frags) input state = Except.ok r ∧
      r.state.context
        = (contextRule input state).2 ++ [ContextType.Assistant (streamContents frags)] ∧
      r.sent = convert_context (contextRule input state).2 ∧
      r.output = streamEvents frags ∧
      r.summary.input_tokens = count_tokens_ctx tok (contextRule input state).2 ∧
      r.summary.response_tokens = count_tokens tok (streamContents frags) ∧
      r.summary.total_tokens
        = (r.summary.input_tokens + r.summary.response_tokens) % 65536 ∧
      r.state.auto_pipe = state.auto_pipe ∧
      r.state.model = state.model := by
  refine ⟨_, rfl, ?_, ?_, ?_, ?_, ?_, ?_, ?_, ?_⟩ <;>
    simp [aggregateStream_foldl_eq, contextRule, String.empty_append]

/-! ## Claim theorems -/

/-- C1: for every prior turn sequence, if carry_context (`auto_pipe`) is
false and the input line carries no continuation marker, the outgoing
context of turn N is exactly one Turn — the current user input, never a
turn from turn N-1 — and after the turn completes exactly one Assistant
turn has been appended to it. -/
theorem context_isolated_when_carry_off (tok : String → Nat) (frags : List StreamResult)
    (input : String) (state : AppState)
    (hcarry : state.auto_pipe = false) (hmark : startsWithPipe input = false) :
    (contextRule input state).2 = [ContextType.User input] ∧
    ∃ r, turnStep tok (Except.ok frags) input state = Except.ok r ∧
      r.sent = [ChatMessage.user input] ∧
      r.state.context
        = [ContextType.User input, ContextType.Assistant (streamContents frags)] := by
  have hc : (contextRule input state).2 = [ContextType.User input] := by
    simp [contextRule, hcarry, hmark]
  obtain ⟨r, hr, hctx, hsent, _, _, _, _, _, _⟩ := turnStep_ok_parts tok frags input state
  refine ⟨hc, r, hr, ?_, ?_⟩
  · rw [hsent, hc]; rfl
  · rw [hctx, hc]; rfl

/-- Witness for C1 at a concrete session: fresh state, input "hi",
streamed reply "there". -/
theorem context_isolated_when_carry_off_witness :
    (contextRule "hi" initState).2 = [ContextType.User "hi"] ∧
    ∃ r, turnStep String.length
        (Except.ok [StreamResult.ok ⟨[⟨some "there"⟩]⟩]) "hi" initState = Except.ok r ∧
      r.sent = [ChatMessage.user "hi"] ∧
      r.state.context = [ContextType.User "hi",
        ContextType.Assistant (streamContents [StreamResult.ok ⟨[⟨some "there"⟩]⟩])] :=
  context_isolated_when_carry_off String.length _ "hi" initState rfl (by decide)

/-- C2: for every prior turn sequence, if carry_context (`auto_pipe`) is
true, the outgoing context of turn N is the full accumulated history
followed by the new user input, and the stored context grows by exactly
two Turns (one User, one Assistant) in the round. -/
theorem context_accumulates_when_carry_on (tok : String → Nat) (frags : List StreamResult)
    (input : String) (state : AppState)
    (hcarry : state.auto_pipe = true) (hmark : startsWithPipe input = false) :
    (contextRule input state).2 = state.context ++ [ContextType.User input] ∧
    ∃ r, turnStep tok (Except.ok frags) input state = Except.ok r ∧
      r.sent = convert_context (state.context ++ [ContextType.User input]) ∧
      r.state.context = state.context
        ++ [ContextType.User input, ContextType.Assistant (streamContents frags)] ∧
      r.state.context.length = state.context.length + 2 := by
  have hc : (contextRule input state).2 = state.context ++ [ContextType.User input] := by
    simp [contextRule, hcarry, hmark]
  obtain ⟨r, hr, hctx, hsent, _, _, _, _, _, _⟩ := turnStep_ok_parts tok frags input state
  refine ⟨hc, r, hr, by rw [hsent, hc], ?_, ?_⟩
  · rw [hctx, hc, List.append_assoc]; rfl
  · rw [hctx, hc]; simp

/-- Witness for C2: carry on, prior history `[User "a", Assistant "r1"]`,
new input "b". -/
theorem context_accumulates_when_carry_on_witness :
    (contextRule "b"
        { model := "gpt-4"
          max_tokens := 512
          auto_pipe := true
          context := [ContextType.User "a", ContextType.Assistant "r1"] }).2
      = [ContextType.User "a", ContextType.Assistant "r1"] ++ [ContextType.User "b"] ∧
    ∃ r, turnStep String.length (Except.ok [StreamResult.ok ⟨[⟨some "r2"⟩]⟩]) "b"
        { model := "gpt-4"
          max_tokens := 512
          auto_pipe := true
          context := [ContextType.User "a", ContextType.Assistant "r1"] } = Except.ok r ∧
      r.sent = convert_context ([ContextType.User "a", ContextType.Assistant "r1"]
        ++ [ContextType.User "b"]) ∧
      r.state.context = [ContextType.User "a", ContextType.Assistant "r1"]
        ++ [ContextType.User "b",
            ContextType.Assistant (streamContents [StreamResult.ok ⟨[⟨some "r2"⟩]⟩])] ∧
      r.state.context.length
        = [ContextType.User "a", ContextType.Assistant "r1"].length + 2 :=
  context_accumulates_when_carry_on String.length _ "b" _ rfl (by decide)

/-- C3 counterexample: a failure to issue the streaming request is NOT
reported inline with the loop proceeding — `create_stream(...).await?`
propagates the error out of `main` (main.rs:88), terminating the
process, which the embedding renders as the turn producing
`Except.error` instead of any completed turn. -/
theorem stream_request_failure_terminates :
    turnStep String.length (Except.error "connection reset") "hi" initState
      = Except.error "connection reset" := rfl

/-- C3 amended: an error delivered as a fragment of an already-open
stream is reported inline (as an output annotation) and the turn still
completes, so the loop proceeds; but a failure to issue the streaming
request propagates out of `main` and terminates the process. -/
theorem stream_error_inline_request_failure_fatal (tok : String → Nat)
    (input : String) (state : AppState) :
    (∀ frags : List StreamResult, ∃ r,
        turnStep tok (Except.ok frags) input state = Except.ok r ∧
        r.output = streamEvents frags) ∧
    (∀ e : String, turnStep tok (Except.error e) input state = Except.error e) := by
  constructor
  · intro frags
    obtain ⟨r, hr, _, _, hout, _, _, _, _, _⟩ := turnStep_ok_parts tok frags input state
    exact ⟨r, hr, hout⟩
  · intro e
    rfl

/-- C4 counterexample: a tokenizer that cannot be initialized does not
surface at startup — startup checks only the API key and enters the
loop — while every later `count_tokens` call fails (the `unwrap` of
`cl100k_base()` is inside the call, main.rs:217), i.e. the failure is
per-call, not construction-time. -/
theorem tokenizer_init_failure_is_per_call :
    mainStartup (some "sk-key") = StartupOutcome.enterLoop initState ∧
    count_tokens_with_init none "hello" = none ∧
    count_tokens_with_init none "world" = none :=
  ⟨rfl, rfl, rfl⟩

/-- C4 amended: `count_tokens` is a deterministic function of the text
given the tokenizer, and it can fail only when the tokenizer capability
cannot be initialized; but since the initialization is attempted inside
every call, that failure surfaces as a per-call failure during a turn,
while startup (which checks only the API key) succeeds regardless. -/
theorem count_tokens_fails_only_on_init (init : Option (String → Nat)) (text : String) :
    count_tokens_with_init init text = init.map (fun cl100k => count_tokens cl100k text) ∧
    (count_tokens_with_init init text = none ↔ init = none) ∧
    (∀ key : String, mainStartup (some key) = StartupOutcome.enterLoop initState) := by
  refine ⟨?_, ?_, fun _ => rfl⟩ <;> cases init <;> simp [count_tokens_with_init]

/-- C5: an error fragment is written as an inline annotation and
streaming continues — the accumulated text is the concatenation, in
receipt order, of exactly the content fragments; fragments after an
error are still processed (the Done transition happens only at
end-of-stream); on `["Hel", error, "lo"]` the result is `"Hello"` with
the annotation between the two contents. -/
theorem stream_error_never_truncates (frags pre post : List StreamResult) (e : String) :
    aggregateStream frags = (streamContents frags, streamEvents frags) ∧
    (aggregateStream (pre ++ StreamResult.err e :: post)).1
      = streamContents pre ++ streamContents post ∧
    aggregateStream [StreamResult.ok ⟨[⟨some "Hel"⟩]⟩, StreamResult.err "E",
        StreamResult.ok ⟨[⟨some "lo"⟩]⟩]
      = ("Hello", [OutputEvent.content "Hel", OutputEvent.errorAnnotation "E",
          OutputEvent.content "lo"]) := by
  refine ⟨aggregateStream_eq frags, ?_, by decide⟩
  rw [aggregateStream_eq, streamContents_append]
  simp [streamContents]

/-- C6 counterexample: in the program's `f64` arithmetic the claimed
exact linearity fails.  For gpt-4 at a = 1, b = 0, c = 1 the claim's
own example instance `price(m, a+b, c) = price(m, a, 0) + price(m, b, c)`
is false: the left side is the rounded sum fl(0.003 + 0.006) while the
right side is the exact sum of the two representable rates, and the two
differ by one unit in the last place. -/
theorem calc_price_f64_not_linear :
    calc_price (1 + 0) 1
        { model := "gpt-4"
          max_tokens := 512
          auto_pipe := false
          context := [] }
      ≠ calc_price 1 0
          { model := "gpt-4"
            max_tokens := 512
            auto_pipe := false
            context := [] }
        + calc_price 0 1
            { model := "gpt-4"
              max_tokens := 512
              auto_pipe := false
              context := [] } := by
  have hS : ((f64Scale : ℚ)) ≠ 0 := by
    norm_num [f64Scale]
  have hNat : calc_priceScaled (1 + 0) 1
        { model := "gpt-4"
          max_tokens := 512
          auto_pipe := false
          context := [] }
      ≠ calc_priceScaled 1 0
          { model := "gpt-4"
            max_tokens := 512
            auto_pipe := false
            context := [] }
        + calc_priceScaled 0 1
            { model := "gpt-4"
              max_tokens := 512
              auto_pipe := false
              context := [] } := by decide
  simp only [calc_price, div_add_div_same]
  intro hc
  exact hNat (by exact_mod_cast (div_left_inj' hS).mp hc)

/-- C6 amended: for each known model the computed price is the `f64`
evaluation of the formula — the correctly rounded sum of the correctly
rounded products of the token counts with the model's per-token `f64`
rate constants; the idealized exact-arithmetic formula
`inp * rate_in + out * rate_out` is linear in the input and output
token counts independently, but the `f64`-computed price satisfies that
formula and its linear decompositions only up to rounding (see the
counterexample). -/
theorem calc_price_rounded_formula_ideal_linear (s : AppState) (a b c : Nat)
    (h : s.model = "gpt-3.5-turbo" ∨ s.model = "gpt-4" ∨ s.model = "gpt-4 turbo") :
    (∃ rates : Nat × Nat, ∀ x y : Nat,
        calc_price x y s
          = (roundF64 (roundF64 (x * rates.1) + roundF64 (y * rates.2)) : ℚ)
              / (f64Scale : ℚ)) ∧
    calc_price_exact (a + b) c s = calc_price_exact a 0 s + calc_price_exact b c s ∧
    calc_price_exact a (b + c) s = calc_price_exact a b s + calc_price_exact 0 c s := by
  rcases h with h | h | h
  · exact ⟨⟨PRICE_3, fun x y => by simp [calc_price, calc_priceScaled, h]⟩,
      by simp [calc_price_exact, h]; ring,
      by simp [calc_price_exact, h]; ring⟩
  · exact ⟨⟨PRICE_4, fun x y => by simp [calc_price, calc_priceScaled, h]⟩,
      by simp [calc_price_exact, h]; ring,
      by simp [calc_price_exact, h]; ring⟩
  · exact ⟨⟨PRICE_4T, fun x y => by simp [calc_price, calc_priceScaled, h]⟩,
      by simp [calc_price_exact, h]; ring,
      by simp [calc_price_exact, h]; ring⟩

/-- Witness for the amended C6 at model gpt-4 with token counts 1, 2, 3. -/
theorem calc_price_rounded_formula_ideal_linear_witness :
    (∃ rates : Nat × Nat, ∀ x y : Nat,
      calc_price x y
          { model := "gpt-4"
            max_tokens := 512
            auto_pipe := false
            context := [] }
        = (roundF64 (roundF64 (x * rates.1) + roundF64 (y * rates.2)) : ℚ)
            / (f64Scale : ℚ)) ∧
    calc_price_exact (1 + 2) 3
        { model := "gpt-4"
          max_tokens := 512
          auto_pipe := false
          context := [] }
      = calc_price_exact 1 0
          { model := "gpt-4"
            max_tokens := 512
            auto_pipe := false
            context := [] }
        + calc_price_exact 2 3
            { model := "gpt-4"
              max_tokens := 512
              auto_pipe := false
              context := [] } ∧
    calc_price_exact 1 (2 + 3)
        { model := "gpt-4"
          max_tokens := 512
          auto_pipe := false
          context := [] }
      = calc_price_exact 1 2
          { model := "gpt-4"
            max_tokens := 512
            auto_pipe := false
            context := [] }
        + calc_price_exact 0 3
            { model := "gpt-4"
              max_tokens := 512
              auto_pipe := false
              context := [] } :=
  calc_price_rounded_formula_ideal_linear _ 1 2 3 (Or.inr (Or.inl rfl))

/-- C7: for every model identifier outside the known set, `calc_price`
returns the sentinel high value 99999 for all token counts, rather than
raising an error. -/
theorem calc_price_unknown_model_sentinel (s : AppState) (inp out : Nat)
    (h3 : s.model ≠ "gpt-3.5-turbo") (h4 : s.model ≠ "gpt-4")
    (h4t : s.model ≠ "gpt-4 turbo") :
    calc_price inp out s = 99999 := by
  unfold calc_price calc_priceScaled
  split
  · simp_all
  · simp_all
  · simp_all
  · rw [Nat.cast_mul, mul_div_assoc,
      div_self (by norm_num [f64Scale] : ((f64Scale : ℚ)) ≠ 0), mul_one]
    norm_num

/-- Witness for C7 at the unknown model "gpt-5". -/
theorem calc_price_unknown_model_sentinel_witness :
    calc_price 7 9
      { model := "gpt-5"
        max_tokens := 512
        auto_pipe := false
        context := [] } = 99999 :=
  calc_price_unknown_model_sentinel _ 7 9 (by decide) (by decide) (by decide)

/-- C8: command parsing is case-insensitive and alias-equivalent:
`:Q`, `:quit`, `:QUIT` all exit the process with code 0, and `:m 4` and
`:model 4` produce the same model switch. -/
theorem parse_command_case_insensitive_aliases (s : AppState) :
    parse_command ":Q" s = CmdResult.exit 0 ∧
    parse_command ":quit" s = CmdResult.exit 0 ∧
    parse_command ":QUIT" s = CmdResult.exit 0 ∧
    parse_command ":m 4" s = CmdResult.cont { s with model := "gpt-4" } ∧
    parse_command ":model 4" s = parse_command ":m 4" s :=
  ⟨rfl, rfl, rfl, rfl, rfl⟩

/-- C9: token counts are truncated to 16 bits — `count_tokens` is the
tokenizer's count modulo 2^16 and `count_tokens_ctx` sums in 16-bit
arithmetic, so it equals the true total modulo 2^16; for a text whose
true count reaches 2^16 the reported count differs from the true
count. -/
theorem token_counts_truncated_u16 (tok : String → Nat) (text : String)
    (context : List ContextType) (h : 65536 ≤ tok text) :
    count_tokens tok text = tok text % 65536 ∧
    count_tokens_ctx tok context = (context.map fun c => tok c.text).sum % 65536 ∧
    count_tokens tok text ≠ tok text := by
  refine ⟨rfl, count_tokens_ctx_eq tok context, ?_⟩
  simp only [count_tokens]
  omega

/-- Witness for C9 with a tokenizer reporting 65537 tokens: the count is
truncated to 1. -/
theorem token_counts_truncated_u16_witness :
    count_tokens (fun _ => 65537) "x" = 1 ∧
    count_tokens_ctx (fun _ => 65537) [ContextType.User "x"] = 1 ∧
    count_tokens (fun _ => 65537) "x" ≠ 65537 := by
  have h := token_counts_truncated_u16 (fun _ => 65537) "x" [ContextType.User "x"]
    (by norm_num)
  exact ⟨h.1.trans (by norm_num), (h.2.1).trans (by decide), h.2.2⟩

/-- C10: after every non-command turn exactly one Assistant turn is
appended to the outgoing context unconditionally, holding the
accumulated stream text, and its token count enters the summary; when
the stream delivered only error fragments the appended Assistant turn
holds the empty string. -/
theorem assistant_turn_always_appended (tok : String → Nat) (frags : List StreamResult)
    (input : String) (state : AppState) :
    (∃ r, turnStep tok (Except.ok frags) input state = Except.ok r ∧
      r.state.context = (contextRule input state).2
        ++ [ContextType.Assistant (streamContents frags)] ∧
      r.summary.response_tokens = count_tokens tok (streamContents frags) ∧
      r.summary.total_tokens
        = (r.summary.input_tokens + r.summary.response_tokens) % 65536) ∧
    ((∀ f ∈ frags, ∃ e, f = StreamResult.err e) → streamContents frags = "") := by
  constructor
  · obtain ⟨r, hr, hctx, _, _, _, hresp, htot, _, _⟩ := turnStep_ok_parts tok frags input state
    exact ⟨r, hr, hctx, hresp, htot⟩
  · intro herr
    induction frags with
    | nil => rfl
    | cons f rest ih =>
        obtain ⟨e, rfl⟩ := herr f (List.mem_cons_self f rest)
        have : streamContents (StreamResult.err e :: rest) = streamContents rest := rfl
        rw [this]
        exact ih fun g hg => herr g (List.mem_cons_of_mem _ hg)

/-- Witness for C10: a stream of only error fragments still appends an
(empty) Assistant turn. -/
theorem assistant_turn_always_appended_witness :
    streamContents [StreamResult.err "a", StreamResult.err "b"] = "" :=
  (assistant_turn_always_appended String.length
      [StreamResult.err "a", StreamResult.err "b"] "hi" initState).2
    (by
      intro f hf
      simp only [List.mem_cons, List.mem_singleton] at hf
      rcases hf with rfl | rfl | h
      · exact ⟨"a", rfl⟩
      · exact ⟨"b", rfl⟩
      · cases h)

end GptCli
